import Mathlib

/-! Shallow embedding of the centripetal Catmull-Rom spline engine
(`UCatmullRomSpline`, declared in
`Plugins/FlyingNavSystem/Source/FlyingNavSystem/Public/FlyingNavFunctionLibrary.h`).
The inline members of the header (`SampleSplineByDistance`, `GetArcLength`,
the `bValid`-initialising constructor) are translated directly from the
header.  The out-of-line member bodies (`GenerateSpline`,
`SampleSplineByParameter`, `FindParameterForDistance`, `EquidistantSamples`,
`FillLUT`) live in a translation unit that is not part of the repository
snapshot, so they are modelled from the specification (sections 4.1-4.5 of
the design document); floating-point arithmetic is idealised as real
arithmetic. -/

/-- `FVector`: a 3D vector, idealised with real coordinates. -/
abbrev FVector : Type := ℝ × ℝ × ℝ

/-- Euclidean distance between two `FVector`s. -/
noncomputable def dist3 (p q : FVector) : ℝ :=
  Real.sqrt ((p.1 - q.1) ^ 2 + (p.2.1 - q.2.1) ^ 2 + (p.2.2 - q.2.2) ^ 2)

/-- Modelled from the spec: `GenerateSpline` first removes consecutive
duplicate path points ("fewer than 2 usable points remain after removing
consecutive duplicates"). -/
noncomputable def removeDup : List FVector → List FVector
  | [] => []
  | [p] => [p]
  | p :: q :: rest =>
      if p = q then removeDup (q :: rest) else p :: removeDup (q :: rest)

/-- Modelled from the spec: construction "synthesizes a leading phantom point
(extrapolated backward from the first real segment) and a trailing phantom
point (extrapolated forward from the last real segment)". -/
noncomputable def paddedPoints (q : List FVector) : List FVector :=
  ((2 : ℝ) • q.getD 0 0 - q.getD 1 0) ::
    (q ++ [(2 : ℝ) • q.getD (q.length - 1) 0 - q.getD (q.length - 2) 0])

/-- Modelled from the spec: the centripetal knot recurrence
`t[i] = t[i-1] + distance(points[i-1], points[i])^0.5`, accumulating from a
given start value. -/
noncomputable def tValuesAux (t : ℝ) : List FVector → List ℝ
  | [] => []
  | [_] => [t]
  | p :: q :: rest => t :: tValuesAux (t + Real.sqrt (dist3 p q)) (q :: rest)

/-- Modelled from the spec: the knot parameters, one per point, with
`t[0] = 0`. -/
noncomputable def tValues (ps : List FVector) : List ℝ := tValuesAux 0 ps

/-- Modelled from the spec: one chord-weighted linear blend of the
Barry-Goldman evaluation, with the near-zero chord guard ("division by
near-zero chord distances must be guarded (treat as zero contribution /
skip)"). -/
noncomputable def lerp (ta tb t : ℝ) (a b : FVector) : FVector :=
  if tb - ta = 0 then a
  else ((tb - t) / (tb - ta)) • a + ((t - ta) / (tb - ta)) • b

/-- Modelled from the spec: the four-point centripetal Catmull-Rom basis for
the segment `[t_i, t_(i+1)]` "using the standard recursive (Barry-Goldman)
formulation: three linear interpolations are built from local
chord-distance-weighted blends of the four control points". -/
noncomputable def evalSegment (pv : List FVector) (tv : List ℝ) (i : ℕ) (t : ℝ) :
    FVector :=
  let p0 := pv.getD (i - 1) 0
  let p1 := pv.getD i 0
  let p2 := pv.getD (i + 1) 0
  let p3 := pv.getD (i + 2) 0
  let t0 := tv.getD (i - 1) 0
  let t1 := tv.getD i 0
  let t2 := tv.getD (i + 1) 0
  let t3 := tv.getD (i + 2) 0
  let A1 := lerp t0 t1 t p0 p1
  let A2 := lerp t1 t2 t p1 p2
  let A3 := lerp t2 t3 t p2 p3
  let B1 := lerp t0 t2 t A1 A2
  let B2 := lerp t1 t3 t A2 A3
  lerp t1 t2 t B1 B2

/-- Modelled from the spec: the number of knots that are `≤ t`, used to
locate "the enclosing knot segment for the (descaled) parameter via a scan
or search over `parameterValues`". -/
noncomputable def countLE (tv : List ℝ) (t : ℝ) : ℕ :=
  tv.countP fun a => decide (a ≤ t)

/-- Modelled from the spec: evaluate the curve at a global knot parameter
`t`, locating the enclosing segment (clamped to the evaluable segment
range) and applying the Barry-Goldman basis. -/
noncomputable def evalAt (pv : List FVector) (tv : List ℝ) (t : ℝ) : FVector :=
  evalSegment pv tv (min (max (countLE tv t - 1) 1) (pv.length - 3)) t

/-- Modelled from the spec: the LUT resolution, "a fixed trade-off between
accuracy and memory/time" (an implementation constant; the LUT has
`lutN + 1` entries at evenly spaced parameter samples). -/
def lutN : ℕ := 10

/-- Modelled from the spec: the curve positions sampled "at fixed parameter
increments" across the usable domain, as walked by `FillLUT`. -/
noncomputable def lutSamples (pv : List FVector) (tv : List ℝ) (tS tSc : ℝ) :
    List FVector :=
  (List.range (lutN + 1)).map fun k : ℕ => evalAt pv tv (tS + (k : ℝ) / (lutN : ℝ) * tSc)

/-- Modelled from the spec: cumulative straight-line distances along a sample
walk, continuing from a previous accumulated distance. -/
noncomputable def cumDistAux (acc : ℝ) (p : FVector) : List FVector → List ℝ
  | [] => []
  | q :: rest => (acc + dist3 p q) :: cumDistAux (acc + dist3 p q) q rest

/-- Modelled from the spec: the cumulative arclength table of a sample walk,
"summing segment-to-segment straight-line distances between consecutive
samples", starting at 0. -/
noncomputable def cumDist : List FVector → List ℝ
  | [] => []
  | p :: rest => 0 :: cumDistAux 0 p rest

/-- Modelled from the spec: `FillLUT` "builds a monotonic table mapping
evenly spaced parameter samples to cumulative Euclidean arclength by walking
the curve at fixed parameter increments". -/
noncomputable def FillLUT (pv : List FVector) (tv : List ℝ) (tS tSc : ℝ) : List ℝ :=
  cumDist (lutSamples pv tv tS tSc)

/-- Modelled from the spec: sampling "clamps the effective parameter into the
valid domain before evaluation". -/
noncomputable def clamp01 (T : ℝ) : ℝ := max 0 (min 1 T)

/-- Modelled from the spec: piecewise-linear inversion of the cumulative
distance table - "a search over the LUT for the bracketing pair of table
entries", linearly interpolating the (fractional) table index "proportional
to where the requested distance falls between the bracketing
cumulative-distance values". -/
noncomputable def invIdx : List ℝ → ℝ → ℝ
  | [], _ => 0
  | [_], _ => 0
  | a :: b :: rest, d =>
      if d ≤ b then (if b ≤ a then 0 else (d - a) / (b - a))
      else 1 + invIdx (b :: rest) d

/-- The spline state, with the fields of `UCatmullRomSpline` in the header:
`PValues`, `TValues`, `DistanceLUT`, `MaxT`, `TScale`, `bValid`. -/
structure UCatmullRomSpline where
  PValues : List FVector
  TValues : List ℝ
  DistanceLUT : List ℝ
  MaxT : ℝ
  TScale : ℝ
  bValid : Bool

/-- The freshly constructed state: the header constructor sets
`bValid(false)`. -/
noncomputable def invalidSpline : UCatmullRomSpline :=
  { PValues := [], TValues := [], DistanceLUT := [], MaxT := 0, TScale := 0,
    bValid := false }

/-- Modelled from the spec: the successful-construction state built from the
deduplicated usable points `q` - phantom-padded points, centripetal knots,
the usable domain from the second usable point to the second-to-last usable
point, the distance LUT over that domain, and `maxParameter` at the last
real point before the trailing phantom. -/
noncomputable def splineOf (q : List FVector) : UCatmullRomSpline :=
  let pv := paddedPoints q
  let tv := tValues pv
  let tS := tv.getD 2 0
  let tSc := tv.getD (pv.length - 3) 0 - tS
  { PValues := pv
    TValues := tv
    DistanceLUT := FillLUT pv tv tS tSc
    MaxT := tv.getD (pv.length - 2) 0
    TScale := tSc
    bValid := true }

/-- Modelled from the spec: `GenerateSpline` - fails (invalid state) if fewer
than 2 usable points remain after removing consecutive duplicates, otherwise
fully populates the state and marks it valid.  The function returns the new
state; the returned success flag of the C++ member is the `bValid` field. -/
noncomputable def GenerateSpline (ps : List FVector) : UCatmullRomSpline :=
  if 2 ≤ (removeDup ps).length then splineOf (removeDup ps) else invalidSpline

/-- Modelled from the spec: `SampleSplineByParameter` - zero-vector sentinel
on an invalid spline, otherwise clamp the normalized parameter into `[0,1]`,
rescale it into the usable knot span, and evaluate the Barry-Goldman basis
on the enclosing segment. -/
noncomputable def SampleSplineByParameter (s : UCatmullRomSpline) (T : ℝ) :
    FVector :=
  if s.bValid = true then
    evalAt s.PValues s.TValues (s.TValues.getD 2 0 + clamp01 T * s.TScale)
  else 0

/-- Translated from the header: `GetArcLength` returns 0 when the spline is
not valid (the failed `ensureMsgf` branch), and `DistanceLUT.Last()`
otherwise. -/
noncomputable def GetArcLength (s : UCatmullRomSpline) : ℝ :=
  if s.bValid = true then s.DistanceLUT.getLastD 0 else 0

/-- Modelled from the spec: `FindParameterForDistance` - sentinel 0 on an
invalid spline; distance `≤ 0` gives `T = 0`, distance `≥` arclength gives
`T = 1`, and otherwise the LUT bracket is linearly interpolated and the
fractional table index normalized into `[0,1]`. -/
noncomputable def FindParameterForDistance (s : UCatmullRomSpline) (Distance : ℝ) :
    ℝ :=
  if s.bValid = true then
    if Distance ≤ 0 then 0
    else if GetArcLength s ≤ Distance then 1
    else invIdx s.DistanceLUT Distance / (lutN : ℝ)
  else 0

/-- Translated from the header: `SampleSplineByDistance` is exactly
`SampleSplineByParameter(FindParameterForDistance(Distance))`. -/
noncomputable def SampleSplineByDistance (s : UCatmullRomSpline) (Distance : ℝ) :
    FVector :=
  SampleSplineByParameter s (FindParameterForDistance s Distance)

/-- Modelled from the spec: the distances walked by `EquidistantSamples` -
"distance 0, spacing, 2 x spacing, ... up to and including total arclength",
with the final curve point always included. -/
noncomputable def eqDistances (A L : ℝ) : List ℝ :=
  ((List.range (⌊A / L⌋₊ + 1)).map fun k : ℕ => (k : ℝ) * L) ++
    (if (⌊A / L⌋₊ : ℝ) * L = A then [] else [A])

/-- Modelled from the spec: `EquidistantSamples` - sentinel empty list on an
invalid spline, explicit failure (empty result) on a degenerate spacing
`≤ 0`, otherwise the equidistant distance walk mapped through
`SampleSplineByDistance`. -/
noncomputable def EquidistantSamples (s : UCatmullRomSpline) (SampleLength : ℝ) :
    List FVector :=
  if s.bValid = true ∧ 0 < SampleLength then
    (eqDistances (GetArcLength s) SampleLength).map (SampleSplineByDistance s)
  else []

/-- The four-point collinear example input of the specification. -/
noncomputable def ex4 : List FVector :=
  [(0, 0, 0), (100, 0, 0), (200, 0, 0), (300, 0, 0)]

/-- A three-point (two-segment) straight-line input of total polyline
length 200. -/
noncomputable def ex3 : List FVector := [(0, 0, 0), (100, 0, 0), (200, 0, 0)]

/-- A five-point input starting with a duplicated point (deduplicates to
`ex4`). -/
noncomputable def ex5 : List FVector :=
  [(0, 0, 0), (0, 0, 0), (100, 0, 0), (200, 0, 0), (300, 0, 0)]

lemma removeDup_length_le (l : List FVector) : (removeDup l).length ≤ l.length := by
  induction l with
  | nil => simp [removeDup]
  | cons p rest ih =>
      cases rest with
      | nil => simp [removeDup]
      | cons q rest' =>
          rw [removeDup]
          split
          · exact Nat.le_succ_of_le ih
          · simpa using ih

lemma removeDup_allEq (l : List FVector) (h : ∀ x ∈ l, ∀ y ∈ l, x = y) :
    (removeDup l).length ≤ 1 := by
  induction l with
  | nil => simp [removeDup]
  | cons p rest ih =>
      cases rest with
      | nil => simp [removeDup]
      | cons q rest' =>
          have hpq : p = q := h p (by simp) q (by simp)
          rw [removeDup, if_pos hpq]
          exact ih fun x hx y hy => h x (List.mem_cons_of_mem _ hx) y (List.mem_cons_of_mem _ hy)

lemma GenerateSpline_valid_iff (ps : List FVector) :
    (GenerateSpline ps).bValid = true ↔ 2 ≤ (removeDup ps).length := by
  unfold GenerateSpline
  split
  · next h => simp [splineOf, h]
  · next h => simpa [invalidSpline] using h

/-- C1: `GenerateSpline` succeeds (returns true, marks the spline valid)
whenever at least 2 usable points remain after removing consecutive
duplicates, and fails (returns false, marks the spline invalid) for inputs
with 0 or 1 points or with all points coincident. -/
theorem C1_construction_validity (ps : List FVector) :
    (2 ≤ (removeDup ps).length → (GenerateSpline ps).bValid = true) ∧
    (ps.length ≤ 1 → (GenerateSpline ps).bValid = false) ∧
    ((∀ p ∈ ps, ∀ q ∈ ps, p = q) → (GenerateSpline ps).bValid = false) := by
  refine ⟨fun h => (GenerateSpline_valid_iff ps).mpr h, fun h => ?_, fun h => ?_⟩
  · have := removeDup_length_le ps
    have hlt : ¬ 2 ≤ (removeDup ps).length := by omega
    unfold GenerateSpline
    rw [if_neg hlt]
    rfl
  · have := removeDup_allEq ps h
    have hlt : ¬ 2 ≤ (removeDup ps).length := by omega
    unfold GenerateSpline
    rw [if_neg hlt]
    rfl

/-- Witness for C1 at concrete inputs: a 2-point input succeeds, the empty
input and a 1-point input fail. -/
theorem C1_witness :
    (GenerateSpline [((0 : ℝ), (0 : ℝ), (0 : ℝ)), ((1 : ℝ), (0 : ℝ), (0 : ℝ))]).bValid = true ∧
    (GenerateSpline ([] : List FVector)).bValid = false ∧
    (GenerateSpline [((5 : ℝ), (5 : ℝ), (5 : ℝ))]).bValid = false :=
  ⟨(C1_construction_validity _).1 (by norm_num [removeDup, Prod.ext_iff]),
   (C1_construction_validity _).2.1 (by norm_num),
   (C1_construction_validity _).2.2 (by simp)⟩

/-- C2: every sampling operation called on a spline in the invalid state
returns its fixed sentinel - the zero vector for the point-valued samplers,
zero for the scalar-valued `FindParameterForDistance` and `GetArcLength`,
and the empty list for `EquidistantSamples`. -/
theorem C2_invalid_state_sentinels (s : UCatmullRomSpline) (T d L : ℝ)
    (h : s.bValid = false) :
    SampleSplineByParameter s T = 0 ∧
    SampleSplineByDistance s d = 0 ∧
    FindParameterForDistance s d = 0 ∧
    GetArcLength s = 0 ∧
    EquidistantSamples s L = [] := by
  refine ⟨?_, ?_, ?_, ?_, ?_⟩ <;>
    simp [SampleSplineByParameter, SampleSplineByDistance, FindParameterForDistance,
      GetArcLength, EquidistantSamples, h]

/-- Witness for C2: the never-successfully-constructed state obtained from
the empty input yields every sentinel. -/
theorem C2_witness :
    SampleSplineByParameter (GenerateSpline []) (1 / 2) = 0 ∧
    SampleSplineByDistance (GenerateSpline []) 7 = 0 ∧
    FindParameterForDistance (GenerateSpline []) 7 = 0 ∧
    GetArcLength (GenerateSpline []) = 0 ∧
    EquidistantSamples (GenerateSpline []) 100 = [] :=
  C2_invalid_state_sentinels (GenerateSpline []) (1 / 2) 7 100
    (by norm_num [GenerateSpline, removeDup, invalidSpline])

/-- C7: for every spacing value `≤ 0`, `EquidistantSamples` terminates (it
is a total function of the embedding) and fails explicitly with the empty
error result instead of walking the curve. -/
theorem C7_nonpositive_spacing_fails (s : UCatmullRomSpline) (L : ℝ)
    (h : L ≤ 0) : EquidistantSamples s L = [] := by
  unfold EquidistantSamples
  rw [if_neg]
  intro hc
  exact absurd hc.2 (not_lt.mpr h)

/-- Witness for C7 at a concrete spacing of `-5` against the concrete
4-point spline. -/
theorem C7_witness : EquidistantSamples (GenerateSpline ex4) (-5) = [] :=
  C7_nonpositive_spacing_fails (GenerateSpline ex4) (-5) (by norm_num)

/-- C10: `SampleSplineByDistance` is definitionally the composition of
`FindParameterForDistance` with `SampleSplineByParameter`, in every spline
state and at every distance. -/
theorem C10_sample_by_distance_composition (s : UCatmullRomSpline) (d : ℝ) :
    SampleSplineByDistance s d =
      SampleSplineByParameter s (FindParameterForDistance s d) := rfl

lemma dist3_nonneg (p q : FVector) : 0 ≤ dist3 p q := Real.sqrt_nonneg _

lemma dist3_self (p : FVector) : dist3 p p = 0 := by
  simp [dist3]

lemma dist3_pos (p q : FVector) (h : p ≠ q) : 0 < dist3 p q := by
  rw [dist3]
  apply Real.sqrt_pos.mpr
  by_contra hs
  push_neg at hs
  have h1 := sq_nonneg (p.1 - q.1)
  have h2 := sq_nonneg (p.2.1 - q.2.1)
  have h3 := sq_nonneg (p.2.2 - q.2.2)
  apply h
  have e1 : p.1 = q.1 := by nlinarith
  have e2 : p.2.1 = q.2.1 := by nlinarith
  have e3 : p.2.2 = q.2.2 := by nlinarith
  exact Prod.ext_iff.mpr ⟨e1, Prod.ext_iff.mpr ⟨e2, e3⟩⟩

lemma tValuesAux_length (l : List FVector) : ∀ t : ℝ, (tValuesAux t l).length = l.length := by
  induction l with
  | nil => intro t; simp [tValuesAux]
  | cons p rest ih =>
      intro t
      cases rest with
      | nil => simp [tValuesAux]
      | cons q rest' => rw [tValuesAux]; simp [ih]

lemma tValuesAux_getD_zero (p : FVector) (rest : List FVector) (t : ℝ) :
    (tValuesAux t (p :: rest)).getD 0 0 = t := by
  cases rest <;> rw [tValuesAux] <;> rfl

lemma tValuesAux_head (p : FVector) (rest : List FVector) (t : ℝ) :
    (tValuesAux t (p :: rest)).head? = some t := by
  cases rest <;> rw [tValuesAux] <;> rfl

lemma tValuesAux_getD_succ (l : List FVector) :
    ∀ (t : ℝ) (i : ℕ), i + 1 < l.length →
      (tValuesAux t l).getD (i + 1) 0 =
        (tValuesAux t l).getD i 0 + Real.sqrt (dist3 (l.getD i 0) (l.getD (i + 1) 0)) := by
  induction l with
  | nil => intro t i h; simp at h
  | cons p rest ih =>
      intro t i h
      cases rest with
      | nil => simp at h
      | cons q rest' =>
          rw [tValuesAux]
          cases i with
          | zero =>
              simp only [List.getD_cons_succ, List.getD_cons_zero]
              rw [tValuesAux_getD_zero]
          | succ j =>
              simp only [List.getD_cons_succ]
              exact ih _ j (by simpa using h)

lemma removeDup_cons_head (x : FVector) (xs : List FVector) :
    (removeDup (x :: xs)).head? = some x := by
  induction xs generalizing x with
  | nil => rw [removeDup]; rfl
  | cons y ys ih =>
      rw [removeDup]
      split
      · next h => rw [h]; exact ih y
      · rfl

lemma removeDup_chain (l : List FVector) : List.Chain' (· ≠ ·) (removeDup l) := by
  induction l with
  | nil => rw [removeDup]; exact List.chain'_nil
  | cons p rest ih =>
      cases rest with
      | nil => rw [removeDup]; exact List.chain'_singleton p
      | cons q rest' =>
          rw [removeDup]
          split
          · exact ih
          · next h =>
              refine List.chain'_cons'.mpr ⟨?_, ih⟩
              intro y hy
              rw [removeDup_cons_head q rest'] at hy
              simp only [Option.mem_def, Option.some.injEq] at hy
              exact hy ▸ h

lemma smul_two_sub_ne (a b : FVector) (h : a ≠ b) : (2 : ℝ) • a - b ≠ a := by
  intro he
  apply h
  have : (2 : ℝ) • a = a + b := by
    rw [sub_eq_iff_eq_add] at he
    exact he
  rw [two_smul] at this
  exact add_left_cancel this

lemma chain'_getD {α : Type} (R : α → α → Prop) (d : α) :
    ∀ (l : List α) (i : ℕ), i + 1 < l.length → List.Chain' R l →
      R (l.getD i d) (l.getD (i + 1) d) := by
  intro l
  induction l with
  | nil => intro i h _; simp at h
  | cons p rest ih =>
      intro i h hch
      cases rest with
      | nil => simp at h
      | cons q rest' =>
          cases i with
          | zero => exact (List.chain'_cons.mp hch).1
          | succ j =>
              simp only [List.getD_cons_succ]
              exact ih j (by simpa using h) (List.chain'_cons.mp hch).2

lemma paddedPoints_chain (q : List FVector) (h2 : 2 ≤ q.length)
    (hch : List.Chain' (· ≠ ·) q) : List.Chain' (· ≠ ·) (paddedPoints q) := by
  rcases q with _ | ⟨a, _ | ⟨b, rest⟩⟩
  · simp at h2
  · simp at h2
  · rw [paddedPoints]
    refine List.chain'_cons'.mpr ⟨?_, ?_⟩
    · intro y hy
      simp only [List.cons_append, List.head?_cons, Option.mem_def, Option.some.injEq] at hy
      subst hy
      simp only [List.getD_cons_zero, List.getD_cons_succ]
      exact smul_two_sub_ne a b (List.chain'_cons.mp hch).1
    · refine List.chain'_append.mpr ⟨hch, List.chain'_singleton _, ?_⟩
      intro x hx y hy
      simp only [List.head?_cons, Option.mem_def, Option.some.injEq] at hy
      subst hy
      have hne : (a :: b :: rest) ≠ [] := by simp
      rw [List.getLast?_eq_getLast_of_ne_nil hne] at hx
      simp only [Option.mem_def, Option.some.injEq] at hx
      subst hx
      have hlen1 : (a :: b :: rest).length - 1 < (a :: b :: rest).length := by
        simp
      have hgl : (a :: b :: rest).getLast hne =
          (a :: b :: rest).getD ((a :: b :: rest).length - 1) 0 := by
        rw [List.getLast_eq_getElem, List.getD_eq_getElem _ _ hlen1]
      have hgd := chain'_getD (· ≠ ·) 0 (a :: b :: rest) ((a :: b :: rest).length - 2)
        (by simp only [List.length_cons]; omega) hch
      rw [show (a :: b :: rest).length - 2 + 1 = (a :: b :: rest).length - 1 by
        simp only [List.length_cons]; omega] at hgd
      rw [hgl]
      intro he
      exact smul_two_sub_ne _ _ (Ne.symm hgd) he.symm

lemma tValuesAux_chain (l : List FVector) :
    ∀ t : ℝ, List.Chain' (· ≠ ·) l → List.Chain' (· < ·) (tValuesAux t l) := by
  induction l with
  | nil => intro t _; rw [tValuesAux]; exact List.chain'_nil
  | cons p rest ih =>
      intro t hch
      cases rest with
      | nil => rw [tValuesAux]; exact List.chain'_singleton t
      | cons q rest' =>
          rw [tValuesAux]
          refine List.chain'_cons'.mpr ⟨?_, ih _ (List.chain'_cons.mp hch).2⟩
          intro y hy
          rw [tValuesAux_head] at hy
          simp only [Option.mem_def, Option.some.injEq] at hy
          subst hy
          have := Real.sqrt_pos.mpr (dist3_pos p q (List.chain'_cons.mp hch).1)
          linarith

/-- C8: on every successful construction, `GenerateSpline` assigns one knot
parameter per (phantom-padded) point by the centripetal rule `t[0] = 0`,
`t[i] = t[i-1] + distance(points[i-1], points[i])^0.5`, and the resulting
sequence is strictly increasing. -/
theorem C8_centripetal_knots (ps : List FVector)
    (h : (GenerateSpline ps).bValid = true) :
    (GenerateSpline ps).TValues.length = (GenerateSpline ps).PValues.length ∧
    (GenerateSpline ps).TValues.getD 0 0 = 0 ∧
    (∀ i, i + 1 < (GenerateSpline ps).TValues.length →
      (GenerateSpline ps).TValues.getD (i + 1) 0 =
        (GenerateSpline ps).TValues.getD i 0 +
          Real.sqrt (dist3 ((GenerateSpline ps).PValues.getD i 0)
            ((GenerateSpline ps).PValues.getD (i + 1) 0))) ∧
    List.Chain' (· < ·) (GenerateSpline ps).TValues := by
  have h2 := (GenerateSpline_valid_iff ps).mp h
  unfold GenerateSpline at *
  rw [if_pos h2] at *
  set q := removeDup ps with hq
  show (splineOf q).TValues.length = (splineOf q).PValues.length ∧ _
  have hP : (splineOf q).PValues = paddedPoints q := rfl
  have hT : (splineOf q).TValues = tValues (paddedPoints q) := rfl
  rw [hP, hT]
  refine ⟨tValuesAux_length _ 0, ?_, ?_, ?_⟩
  · rw [paddedPoints, tValues]
    exact tValuesAux_getD_zero _ _ 0
  · intro i hi
    rw [tValues] at hi ⊢
    exact tValuesAux_getD_succ _ 0 i (by rwa [tValuesAux_length] at hi)
  · exact tValuesAux_chain _ 0 (paddedPoints_chain q h2 (removeDup_chain ps))

/-- Witness for C8 at the concrete 4-point collinear input. -/
theorem C8_witness :
    (GenerateSpline ex4).TValues.length = (GenerateSpline ex4).PValues.length ∧
    (GenerateSpline ex4).TValues.getD 0 0 = 0 ∧
    (∀ i, i + 1 < (GenerateSpline ex4).TValues.length →
      (GenerateSpline ex4).TValues.getD (i + 1) 0 =
        (GenerateSpline ex4).TValues.getD i 0 +
          Real.sqrt (dist3 ((GenerateSpline ex4).PValues.getD i 0)
            ((GenerateSpline ex4).PValues.getD (i + 1) 0))) ∧
    List.Chain' (· < ·) (GenerateSpline ex4).TValues :=
  C8_centripetal_knots ex4
    ((GenerateSpline_valid_iff ex4).mpr (by norm_num [ex4, removeDup, Prod.ext_iff]))

lemma lerp_same (ta tb t : ℝ) (a : FVector) : lerp ta tb t a a = a := by
  unfold lerp
  split
  · rfl
  · next h =>
      rw [← add_smul]
      have hs : (tb - t) / (tb - ta) + (t - ta) / (tb - ta) = 1 := by
        field_simp
      rw [hs, one_smul]

lemma lerp_left (ta tb : ℝ) (h : ta ≠ tb) (a b : FVector) : lerp ta tb ta a b = a := by
  have hne : tb - ta ≠ 0 := sub_ne_zero.mpr (Ne.symm h)
  unfold lerp
  rw [if_neg hne]
  simp [div_self hne]

lemma lerp_right (ta tb : ℝ) (h : ta ≠ tb) (a b : FVector) : lerp ta tb tb a b = b := by
  have hne : tb - ta ≠ 0 := sub_ne_zero.mpr (Ne.symm h)
  unfold lerp
  rw [if_neg hne]
  simp [div_self hne]

lemma evalSegment_left (pv : List FVector) (tv : List ℝ) (i : ℕ)
    (h01 : tv.getD (i - 1) 0 < tv.getD i 0)
    (h12 : tv.getD i 0 < tv.getD (i + 1) 0)
    (_h23 : tv.getD (i + 1) 0 < tv.getD (i + 2) 0) :
    evalSegment pv tv i (tv.getD i 0) = pv.getD i 0 := by
  simp only [evalSegment]
  rw [lerp_left _ _ (ne_of_lt h12), lerp_right _ _ (ne_of_lt h01),
    lerp_left _ _ (ne_of_lt h12), lerp_same]

lemma countLE_cons (l : List ℝ) (x t : ℝ) :
    countLE (x :: l) t = countLE l t + if x ≤ t then 1 else 0 := by
  rw [countLE, countLE, List.countP_cons]
  by_cases h : x ≤ t <;> simp [h]

lemma countLE_sorted (tv : List ℝ) (hp : List.Pairwise (· < ·) tv) :
    ∀ k : ℕ, k < tv.length → countLE tv (tv.getD k 0) = k + 1 := by
  induction tv with
  | nil => intro k hk; simp at hk
  | cons a rest ih =>
      intro k hk
      rw [countLE_cons]
      cases k with
      | zero =>
          simp only [List.getD_cons_zero]
          have h0 : countLE rest a = 0 := by
            rw [countLE]
            apply List.countP_eq_zero.mpr
            intro x hx
            simpa using not_le.mpr ((List.pairwise_cons.mp hp).1 x hx)
          simp [h0]
      | succ j =>
          have hj : j < rest.length := by simpa using hk
          simp only [List.getD_cons_succ]
          have hmem : rest.getD j 0 ∈ rest := by
            rw [List.getD_eq_getElem _ _ hj]
            exact List.getElem_mem hj
          have ha : a ≤ rest.getD j 0 :=
            le_of_lt ((List.pairwise_cons.mp hp).1 _ hmem)
          rw [ih (List.pairwise_cons.mp hp).2 j hj, if_pos ha]

lemma pairwise_getD_lt (tv : List ℝ) (hp : List.Pairwise (· < ·) tv)
    (i j : ℕ) (hij : i < j) (hj : j < tv.length) : tv.getD i 0 < tv.getD j 0 := by
  rw [List.getD_eq_getElem _ _ (lt_trans hij hj), List.getD_eq_getElem _ _ hj]
  have := List.pairwise_iff_get.mp hp ⟨i, lt_trans hij hj⟩ ⟨j, hj⟩ hij
  simpa [List.get_eq_getElem] using this

lemma evalAt_knot (pv : List FVector) (tv : List ℝ) (k : ℕ)
    (hlen : tv.length = pv.length) (hp : List.Pairwise (· < ·) tv)
    (hk2 : 2 ≤ k) (hk : k ≤ pv.length - 3) (h6 : 6 ≤ pv.length) :
    evalAt pv tv (tv.getD k 0) = pv.getD k 0 := by
  rw [evalAt]
  have hcnt : countLE tv (tv.getD k 0) = k + 1 :=
    countLE_sorted tv hp k (by omega)
  rw [hcnt]
  have hidx : min (max (k + 1 - 1) 1) (pv.length - 3) = k := by omega
  rw [hidx]
  exact evalSegment_left pv tv k
    (pairwise_getD_lt tv hp (k - 1) k (by omega) (by omega))
    (pairwise_getD_lt tv hp k (k + 1) (by omega) (by omega))
    (pairwise_getD_lt tv hp (k + 1) (k + 2) (by omega) (by omega))

lemma paddedPoints_length (q : List FVector) :
    (paddedPoints q).length = q.length + 2 := by
  simp [paddedPoints]

lemma paddedPoints_getD (q : List FVector) (j : ℕ) (hj : j < q.length) :
    (paddedPoints q).getD (j + 1) 0 = q.getD j 0 := by
  rw [paddedPoints, List.getD_cons_succ]
  exact List.getD_append _ _ _ _ hj

lemma splineOf_PValues (q : List FVector) :
    (splineOf q).PValues = paddedPoints q := rfl

lemma splineOf_TValues (q : List FVector) :
    (splineOf q).TValues = tValues (paddedPoints q) := rfl

lemma splineOf_TScale (q : List FVector) :
    (splineOf q).TScale =
      (tValues (paddedPoints q)).getD ((paddedPoints q).length - 3) 0 -
        (tValues (paddedPoints q)).getD 2 0 := rfl

lemma splineOf_DistanceLUT (q : List FVector) :
    (splineOf q).DistanceLUT =
      FillLUT (paddedPoints q) (tValues (paddedPoints q))
        ((tValues (paddedPoints q)).getD 2 0)
        ((tValues (paddedPoints q)).getD ((paddedPoints q).length - 3) 0 -
          (tValues (paddedPoints q)).getD 2 0) := rfl

lemma splineOf_bValid (q : List FVector) : (splineOf q).bValid = true := rfl

lemma splineOf_pairwise (q : List FVector) (h2 : 2 ≤ q.length)
    (hch : List.Chain' (· ≠ ·) q) :
    List.Pairwise (· < ·) (tValues (paddedPoints q)) :=
  List.chain'_iff_pairwise.mp
    (tValuesAux_chain (paddedPoints q) 0 (paddedPoints_chain q h2 hch))

lemma sample_zero (q : List FVector) (h4 : 4 ≤ q.length)
    (hch : List.Chain' (· ≠ ·) q) :
    SampleSplineByParameter (splineOf q) 0 = q.getD 1 0 := by
  rw [SampleSplineByParameter, if_pos (splineOf_bValid q)]
  rw [splineOf_PValues, splineOf_TValues, splineOf_TScale]
  have hc : clamp01 0 = 0 := by norm_num [clamp01]
  rw [hc, zero_mul, add_zero]
  have hp := splineOf_pairwise q (by omega) hch
  have hlen : (tValues (paddedPoints q)).length = (paddedPoints q).length :=
    tValuesAux_length _ 0
  have h6 : 6 ≤ (paddedPoints q).length := by rw [paddedPoints_length]; omega
  rw [evalAt_knot (paddedPoints q) (tValues (paddedPoints q)) 2 hlen hp
    (by omega) (by omega) h6]
  exact paddedPoints_getD q 1 (by omega)

lemma sample_one (q : List FVector) (h4 : 4 ≤ q.length)
    (hch : List.Chain' (· ≠ ·) q) :
    SampleSplineByParameter (splineOf q) 1 = q.getD (q.length - 2) 0 := by
  rw [SampleSplineByParameter, if_pos (splineOf_bValid q)]
  rw [splineOf_PValues, splineOf_TValues, splineOf_TScale]
  have hc : clamp01 1 = 1 := by norm_num [clamp01]
  rw [hc, one_mul, add_sub_cancel]
  have hp := splineOf_pairwise q (by omega) hch
  have hlen : (tValues (paddedPoints q)).length = (paddedPoints q).length :=
    tValuesAux_length _ 0
  have h6 : 6 ≤ (paddedPoints q).length := by rw [paddedPoints_length]; omega
  rw [evalAt_knot (paddedPoints q) (tValues (paddedPoints q))
    ((paddedPoints q).length - 3) hlen hp (by omega) (by omega) h6]
  have hidx : (paddedPoints q).length - 3 = q.length - 2 + 1 := by
    rw [paddedPoints_length]; omega
  rw [hidx]
  exact paddedPoints_getD q (q.length - 2) (by omega)

lemma dist3_x (x1 x2 y z : ℝ) : dist3 (x1, y, z) (x2, y, z) = |x1 - x2| := by
  rw [dist3]
  simp only [sub_self]
  rw [show (x1 - x2) ^ 2 + 0 ^ 2 + 0 ^ 2 = (x1 - x2) ^ 2 by ring]
  exact Real.sqrt_sq_eq_abs _

/-- C3 (amended): for every spline whose deduplicated input has at least 4
usable points, construction succeeds, `SampleSplineByParameter 0` is the
second usable (deduplicated) point, and `SampleSplineByParameter 1` is the
second-to-last usable point: the usable parameter range spans the interior
knots. -/
theorem C3_parameter_endpoints (ps : List FVector)
    (h4 : 4 ≤ (removeDup ps).length) :
    (GenerateSpline ps).bValid = true ∧
    SampleSplineByParameter (GenerateSpline ps) 0 = (removeDup ps).getD 1 0 ∧
    SampleSplineByParameter (GenerateSpline ps) 1 =
      (removeDup ps).getD ((removeDup ps).length - 2) 0 := by
  have h2 : 2 ≤ (removeDup ps).length := by omega
  unfold GenerateSpline
  rw [if_pos h2]
  exact ⟨splineOf_bValid _, sample_zero _ h4 (removeDup_chain ps),
    sample_one _ h4 (removeDup_chain ps)⟩

/-- Witness for C3 at the concrete 4-point collinear input: the usable range
runs from the second input point `(100,0,0)` to the second-to-last input
point `(200,0,0)`. -/
theorem C3_witness :
    (GenerateSpline ex4).bValid = true ∧
    SampleSplineByParameter (GenerateSpline ex4) 0 = ((100 : ℝ), (0 : ℝ), (0 : ℝ)) ∧
    SampleSplineByParameter (GenerateSpline ex4) 1 = ((200 : ℝ), (0 : ℝ), (0 : ℝ)) := by
  have hrd : removeDup ex4 = ex4 := by
    norm_num [removeDup, ex4, Prod.ext_iff]
  have h := C3_parameter_endpoints ex4 (by rw [hrd]; norm_num [ex4])
  rw [hrd] at h
  simpa [ex4] using h

/-- Counterexample to C3 as stated: for an input with a duplicated leading
point, the parameter-0 sample is the second deduplicated point, not the
second raw input point - here they differ by a distance of 100. -/
theorem C3_counterexample :
    4 ≤ ex5.length ∧ (GenerateSpline ex5).bValid = true ∧
    SampleSplineByParameter (GenerateSpline ex5) 0 ≠ ex5.getD 1 0 ∧
    dist3 (SampleSplineByParameter (GenerateSpline ex5) 0) (ex5.getD 1 0) = 100 := by
  have hrd : removeDup ex5 = ex4 := by
    norm_num [removeDup, ex5, ex4, Prod.ext_iff]
  have hgen : GenerateSpline ex5 = splineOf ex4 := by
    rw [GenerateSpline, hrd, if_pos (by norm_num [ex4])]
  have hch : List.Chain' (· ≠ ·) ex4 := by
    have := removeDup_chain ex5
    rwa [hrd] at this
  have h0 : SampleSplineByParameter (GenerateSpline ex5) 0 = ((100 : ℝ), (0 : ℝ), (0 : ℝ)) := by
    rw [hgen]
    have := sample_zero ex4 (by norm_num [ex4]) hch
    simpa [ex4] using this
  have h1 : ex5.getD 1 0 = ((0 : ℝ), (0 : ℝ), (0 : ℝ)) := by simp [ex5]
  refine ⟨by norm_num [ex5], ?_, ?_, ?_⟩
  · rw [hgen]; rfl
  · rw [h0, h1]
    intro he
    rw [Prod.ext_iff] at he
    norm_num at he
  · rw [h0, h1, dist3_x]
    norm_num

lemma cumDistAux_length (l : List FVector) :
    ∀ (acc : ℝ) (p : FVector), (cumDistAux acc p l).length = l.length := by
  induction l with
  | nil => intro acc p; rw [cumDistAux]; rfl
  | cons q rest ih =>
      intro acc p
      rw [cumDistAux]
      simp [ih]

lemma cumDist_length (l : List FVector) : (cumDist l).length = l.length := by
  cases l with
  | nil => rfl
  | cons p rest => rw [cumDist]; simp [cumDistAux_length]

lemma lutSamples_length (pv : List FVector) (tv : List ℝ) (tS tSc : ℝ) :
    (lutSamples pv tv tS tSc).length = lutN + 1 := by
  rw [lutSamples, List.length_map, List.length_range]

lemma lutSamples_ne_nil (pv : List FVector) (tv : List ℝ) (tS tSc : ℝ) :
    lutSamples pv tv tS tSc ≠ [] := by
  apply List.ne_nil_of_length_pos
  rw [lutSamples_length]
  omega

lemma cumDist_head (l : List FVector) (h : l ≠ []) : (cumDist l).head? = some 0 := by
  cases l with
  | nil => exact absurd rfl h
  | cons p rest => rw [cumDist]; rfl

lemma gen_eq_splineOf (ps : List FVector) (hv : (GenerateSpline ps).bValid = true) :
    GenerateSpline ps = splineOf (removeDup ps) := by
  rw [GenerateSpline, if_pos ((GenerateSpline_valid_iff ps).mp hv)]

lemma gen_lut_head (ps : List FVector) (hv : (GenerateSpline ps).bValid = true) :
    (GenerateSpline ps).DistanceLUT.head? = some 0 := by
  rw [gen_eq_splineOf ps hv, splineOf_DistanceLUT, FillLUT]
  exact cumDist_head _ (lutSamples_ne_nil _ _ _ _)

lemma gen_lut_length (ps : List FVector) (hv : (GenerateSpline ps).bValid = true) :
    (GenerateSpline ps).DistanceLUT.length = lutN + 1 := by
  rw [gen_eq_splineOf ps hv, splineOf_DistanceLUT, FillLUT, cumDist_length,
    lutSamples_length]

lemma invIdx_nonneg : ∀ (l : List ℝ) (d : ℝ),
    (∀ a, l.head? = some a → a ≤ d) → 0 ≤ invIdx l d := by
  intro l
  induction l with
  | nil => intro d _; rw [invIdx]
  | cons a rest ih =>
      intro d hh
      cases rest with
      | nil => rw [invIdx]
      | cons b rest' =>
          rw [invIdx]
          split
          · next hdb =>
              split
              · exact le_refl 0
              · next hba =>
                  have hab : a < b := lt_of_not_le hba
                  have had : a ≤ d := hh a rfl
                  exact div_nonneg (by linarith) (by linarith)
          · next hdb =>
              have hbd : b ≤ d := le_of_lt (lt_of_not_le hdb)
              have := ih d fun x hx => by
                simp only [List.head?_cons, Option.some.injEq] at hx
                exact hx ▸ hbd
              linarith

lemma invIdx_le : ∀ (l : List ℝ) (d : ℝ), invIdx l d ≤ ((l.length - 1 : ℕ) : ℝ) := by
  intro l
  induction l with
  | nil => intro d; rw [invIdx]; simp
  | cons a rest ih =>
      intro d
      cases rest with
      | nil => rw [invIdx]; simp
      | cons b rest' =>
          rw [invIdx]
          have hlen : ((a :: b :: rest').length - 1 : ℕ) = rest'.length + 1 := by
            simp
          rw [hlen]
          split
          · next hdb =>
              split
              · exact Nat.cast_nonneg _
              · next hba =>
                  have hab : a < b := lt_of_not_le hba
                  have h1 : (d - a) / (b - a) ≤ 1 := by
                    rw [div_le_one (by linarith)]
                    linarith
                  have h2 : (1 : ℝ) ≤ ((rest'.length + 1 : ℕ) : ℝ) := by
                    exact_mod_cast Nat.succ_le_succ (Nat.zero_le _)
                  linarith
          · next hdb =>
              have := ih d
              have hlen' : ((b :: rest').length - 1 : ℕ) = rest'.length := by simp
              rw [hlen'] at this
              push_cast at this ⊢
              linarith

lemma invIdx_mono : ∀ (l : List ℝ) (d1 d2 : ℝ),
    (∀ a, l.head? = some a → a ≤ d1) → d1 ≤ d2 → invIdx l d1 ≤ invIdx l d2 := by
  intro l
  induction l with
  | nil => intro d1 d2 _ _; simp [invIdx]
  | cons a rest ih =>
      intro d1 d2 hh hd
      cases rest with
      | nil => simp [invIdx]
      | cons b rest' =>
          have had : a ≤ d1 := hh a rfl
          by_cases h2 : d2 ≤ b
          · have h1 : d1 ≤ b := le_trans hd h2
            rw [invIdx, invIdx, if_pos h1, if_pos h2]
            by_cases hba : b ≤ a
            · rw [if_pos hba, if_pos hba]
            · rw [if_neg hba, if_neg hba]
              have hab : a < b := lt_of_not_le hba
              rw [div_le_div_iff_of_pos_right (by linarith)]
              linarith
          · by_cases h1 : d1 ≤ b
            · rw [invIdx, invIdx, if_pos h1, if_neg h2]
              have hnn : 0 ≤ invIdx (b :: rest') d2 := by
                apply invIdx_nonneg
                intro x hx
                simp only [List.head?_cons, Option.some.injEq] at hx
                exact hx ▸ le_of_lt (lt_of_not_le h2)
              split
              · linarith
              · next hba =>
                  have hab : a < b := lt_of_not_le hba
                  have : (d1 - a) / (b - a) ≤ 1 := by
                    rw [div_le_one (by linarith)]
                    linarith
                  linarith
            · rw [invIdx, invIdx, if_neg h1, if_neg h2]
              have hbd1 : b ≤ d1 := le_of_lt (lt_of_not_le h1)
              have := ih d1 d2 (fun x hx => by
                simp only [List.head?_cons, Option.some.injEq] at hx
                exact hx ▸ hbd1) hd
              linarith

lemma lutN_cast_pos : (0 : ℝ) < (lutN : ℝ) := by norm_num [lutN]

lemma FindParameter_bounds (ps : List FVector) (d : ℝ)
    (hv : (GenerateSpline ps).bValid = true) :
    0 ≤ FindParameterForDistance (GenerateSpline ps) d ∧
    FindParameterForDistance (GenerateSpline ps) d ≤ 1 := by
  rw [FindParameterForDistance, if_pos hv]
  by_cases h0 : d ≤ 0
  · rw [if_pos h0]; norm_num
  · rw [if_neg h0]
    by_cases ha : GetArcLength (GenerateSpline ps) ≤ d
    · rw [if_pos ha]; norm_num
    · rw [if_neg ha]
      constructor
      · apply div_nonneg _ (le_of_lt lutN_cast_pos)
        apply invIdx_nonneg
        intro a hha
        rw [gen_lut_head ps hv] at hha
        simp only [Option.some.injEq] at hha
        rw [← hha]
        exact le_of_lt (lt_of_not_le h0)
      · rw [div_le_one lutN_cast_pos]
        calc invIdx (GenerateSpline ps).DistanceLUT d
            ≤ (((GenerateSpline ps).DistanceLUT.length - 1 : ℕ) : ℝ) := invIdx_le _ d
          _ = (lutN : ℝ) := by rw [gen_lut_length ps hv]; norm_num

lemma removeDup_ex4 : removeDup ex4 = ex4 := by
  norm_num [removeDup, ex4, Prod.ext_iff]

lemma removeDup_ex3 : removeDup ex3 = ex3 := by
  norm_num [removeDup, ex3, Prod.ext_iff]

lemma valid_ex4 : (GenerateSpline ex4).bValid = true := by
  rw [GenerateSpline_valid_iff, removeDup_ex4]
  norm_num [ex4]

lemma valid_ex3 : (GenerateSpline ex3).bValid = true := by
  rw [GenerateSpline_valid_iff, removeDup_ex3]
  norm_num [ex3]

lemma gen_ex3 : GenerateSpline ex3 = splineOf ex3 := by
  rw [GenerateSpline, removeDup_ex3, if_pos (by norm_num [ex3])]

lemma gen_ex4 : GenerateSpline ex4 = splineOf ex4 := by
  rw [GenerateSpline, removeDup_ex4, if_pos (by norm_num [ex4])]

lemma lutSamples_const (pv : List FVector) (tv : List ℝ) (tS : ℝ) :
    lutSamples pv tv tS 0 = List.replicate (lutN + 1) (evalAt pv tv tS) := by
  rw [lutSamples]
  apply List.eq_replicate_of_mem
  intro b hb
  rcases List.mem_map.mp hb with ⟨k, _, hk⟩
  rw [← hk, mul_zero, add_zero]

lemma cumDistAux_replicate (n : ℕ) :
    ∀ (acc : ℝ) (p : FVector), cumDistAux acc p (List.replicate n p) = List.replicate n acc := by
  induction n with
  | zero => intro acc p; rfl
  | succ m ih =>
      intro acc p
      rw [List.replicate_succ, cumDistAux, dist3_self, add_zero, ih, List.replicate_succ]

lemma cumDist_replicate (n : ℕ) (p : FVector) :
    cumDist (List.replicate (n + 1) p) = List.replicate (n + 1) (0 : ℝ) := by
  rw [List.replicate_succ, cumDist, cumDistAux_replicate, List.replicate_succ]

lemma getLastD_replicate_zero : ∀ n : ℕ, (List.replicate n (0 : ℝ)).getLastD 0 = 0 := by
  intro n
  induction n with
  | zero => rfl
  | succ m ih => rw [List.replicate_succ, List.getLastD_cons]; exact ih

lemma arc_ex3 : GetArcLength (GenerateSpline ex3) = 0 := by
  rw [gen_ex3, GetArcLength, if_pos (splineOf_bValid _), splineOf_DistanceLUT]
  have hlen : (paddedPoints ex3).length = 5 := by
    rw [paddedPoints_length]; norm_num [ex3]
  rw [hlen]
  simp only [show (5 : ℕ) - 3 = 2 from rfl]
  rw [sub_self, FillLUT, lutSamples_const, cumDist_replicate]
  exact getLastD_replicate_zero (lutN + 1)

/-- C4 (amended): for every valid spline, `FindParameterForDistance` maps
every distance `≤ 0` to parameter 0, maps every positive distance `≥` the
total arclength to parameter 1, and its result always lies in `[0,1]` -
clamped, never extrapolated. -/
theorem C4_distance_clamping (ps : List FVector) (d : ℝ)
    (hv : (GenerateSpline ps).bValid = true) :
    (d ≤ 0 → FindParameterForDistance (GenerateSpline ps) d = 0) ∧
    (0 < d → GetArcLength (GenerateSpline ps) ≤ d →
      FindParameterForDistance (GenerateSpline ps) d = 1) ∧
    0 ≤ FindParameterForDistance (GenerateSpline ps) d ∧
    FindParameterForDistance (GenerateSpline ps) d ≤ 1 := by
  refine ⟨fun h0 => ?_, fun h0 ha => ?_, FindParameter_bounds ps d hv⟩
  · rw [FindParameterForDistance, if_pos hv, if_pos h0]
  · rw [FindParameterForDistance, if_pos hv, if_neg (not_le.mpr h0), if_pos ha]

/-- Witness for C4 against the concrete 4-point spline: distance `-1` maps
to parameter 0 and the result at distance 5 lies in `[0,1]`. -/
theorem C4_witness :
    FindParameterForDistance (GenerateSpline ex4) (-1) = 0 ∧
    0 ≤ FindParameterForDistance (GenerateSpline ex4) 5 ∧
    FindParameterForDistance (GenerateSpline ex4) 5 ≤ 1 :=
  ⟨(C4_distance_clamping ex4 (-1) valid_ex4).1 (by norm_num),
   (C4_distance_clamping ex4 5 valid_ex4).2.2⟩

/-- Counterexample to C4 as stated: a valid spline can have total arclength
0 (a 3-point input, whose usable interior span is a single knot); at
distance 0 both of the claim's clauses apply, demanding parameter 0 and
parameter 1 at once, and the code returns 0, not 1. -/
theorem C4_counterexample :
    ¬ (∀ (s : UCatmullRomSpline) (d : ℝ), s.bValid = true →
        (d ≤ 0 → FindParameterForDistance s d = 0) ∧
        (GetArcLength s ≤ d → FindParameterForDistance s d = 1)) := by
  intro hc
  have h := hc (GenerateSpline ex3) 0 valid_ex3
  have h1 := h.1 le_rfl
  have h2 := h.2 (by rw [arc_ex3])
  rw [h1] at h2
  norm_num at h2

/-- C5: for every valid spline, the distance-to-parameter inversion is
monotonically non-decreasing: `d1 ≤ d2` implies
`FindParameterForDistance d1 ≤ FindParameterForDistance d2`. -/
theorem C5_find_parameter_monotone (ps : List FVector) (d1 d2 : ℝ)
    (hv : (GenerateSpline ps).bValid = true) (hd : d1 ≤ d2) :
    FindParameterForDistance (GenerateSpline ps) d1 ≤
      FindParameterForDistance (GenerateSpline ps) d2 := by
  have hb1 := FindParameter_bounds ps d1 hv
  have hb2 := FindParameter_bounds ps d2 hv
  by_cases h10 : d1 ≤ 0
  · have e1 : FindParameterForDistance (GenerateSpline ps) d1 = 0 := by
      rw [FindParameterForDistance, if_pos hv, if_pos h10]
    rw [e1]
    exact hb2.1
  · have h20 : ¬ d2 ≤ 0 := fun h => h10 (le_trans hd h)
    by_cases ha1 : GetArcLength (GenerateSpline ps) ≤ d1
    · have e1 : FindParameterForDistance (GenerateSpline ps) d1 = 1 := by
        rw [FindParameterForDistance, if_pos hv, if_neg h10, if_pos ha1]
      have e2 : FindParameterForDistance (GenerateSpline ps) d2 = 1 := by
        rw [FindParameterForDistance, if_pos hv, if_neg h20, if_pos (le_trans ha1 hd)]
      rw [e1, e2]
    · by_cases ha2 : GetArcLength (GenerateSpline ps) ≤ d2
      · have e2 : FindParameterForDistance (GenerateSpline ps) d2 = 1 := by
          rw [FindParameterForDistance, if_pos hv, if_neg h20, if_pos ha2]
        rw [e2]
        exact hb1.2
      · have e1 : FindParameterForDistance (GenerateSpline ps) d1 =
            invIdx (GenerateSpline ps).DistanceLUT d1 / (lutN : ℝ) := by
          rw [FindParameterForDistance, if_pos hv, if_neg h10, if_neg ha1]
        have e2 : FindParameterForDistance (GenerateSpline ps) d2 =
            invIdx (GenerateSpline ps).DistanceLUT d2 / (lutN : ℝ) := by
          rw [FindParameterForDistance, if_pos hv, if_neg h20, if_neg ha2]
        rw [e1, e2, div_le_div_iff_of_pos_right lutN_cast_pos]
        apply invIdx_mono _ d1 d2 _ hd
        intro a hha
        rw [gen_lut_head ps hv] at hha
        simp only [Option.some.injEq] at hha
        rw [← hha]
        exact le_of_lt (lt_of_not_le h10)

/-- Witness for C5 at the concrete 4-point spline and distances `0 ≤ 1`. -/
theorem C5_witness :
    FindParameterForDistance (GenerateSpline ex4) 0 ≤
      FindParameterForDistance (GenerateSpline ex4) 1 :=
  C5_find_parameter_monotone ex4 0 1 valid_ex4 (by norm_num)

/-- The phantom-padded points of `ex4`, written out. -/
noncomputable def pv4 : List FVector :=
  [(-100, 0, 0), (0, 0, 0), (100, 0, 0), (200, 0, 0), (300, 0, 0), (400, 0, 0)]

/-- The centripetal knots of `pv4`, written out. -/
noncomputable def tv4 : List ℝ := [0, 10, 20, 30, 40, 50]

lemma sqrt_100 : Real.sqrt 100 = 10 := by
  rw [show (100 : ℝ) = 10 ^ 2 by norm_num, Real.sqrt_sq (by norm_num : (0:ℝ) ≤ 10)]

lemma sqrt_10000 : Real.sqrt 10000 = 100 := by
  rw [show (10000 : ℝ) = 100 ^ 2 by norm_num, Real.sqrt_sq (by norm_num : (0:ℝ) ≤ 100)]

lemma padded_ex4 : paddedPoints ex4 = pv4 := by
  norm_num [paddedPoints, ex4, pv4, List.getD_cons_zero, List.getD_cons_succ,
    Prod.smul_mk, smul_eq_mul, Prod.ext_iff]

lemma tValues_pv4 : tValues pv4 = tv4 := by
  simp only [tValues, pv4, tv4, tValuesAux, dist3]
  norm_num [sqrt_10000, sqrt_100]

lemma lerp_on_line (m c ta tb t y z : ℝ) (h : tb - ta ≠ 0) :
    lerp ta tb t (m * ta + c, y, z) (m * tb + c, y, z) = (m * t + c, y, z) := by
  rw [lerp, if_neg h]
  simp only [Prod.smul_mk, smul_eq_mul, Prod.mk_add_mk, Prod.mk.injEq]
  refine ⟨?_, ?_, ?_⟩ <;> field_simp <;> ring

lemma eval2_pv4 (t : ℝ) : evalSegment pv4 tv4 2 t = (10 * t + -100, 0, 0) := by
  simp only [evalSegment, pv4, tv4, List.getD_cons_succ, List.getD_cons_zero]
  rw [show ((0:ℝ), (0:ℝ), (0:ℝ)) = ((10:ℝ) * 10 + -100, (0:ℝ), (0:ℝ)) by norm_num,
    show ((100:ℝ), (0:ℝ), (0:ℝ)) = ((10:ℝ) * 20 + -100, (0:ℝ), (0:ℝ)) by norm_num,
    show ((200:ℝ), (0:ℝ), (0:ℝ)) = ((10:ℝ) * 30 + -100, (0:ℝ), (0:ℝ)) by norm_num,
    show ((300:ℝ), (0:ℝ), (0:ℝ)) = ((10:ℝ) * 40 + -100, (0:ℝ), (0:ℝ)) by norm_num]
  rw [lerp_on_line 10 (-100) 10 20 t 0 0 (by norm_num),
    lerp_on_line 10 (-100) 20 30 t 0 0 (by norm_num),
    lerp_on_line 10 (-100) 30 40 t 0 0 (by norm_num),
    lerp_same, lerp_same, lerp_same]

lemma eval3_pv4 (t : ℝ) : evalSegment pv4 tv4 3 t = (10 * t + -100, 0, 0) := by
  simp only [evalSegment, pv4, tv4, List.getD_cons_succ, List.getD_cons_zero]
  rw [show ((100:ℝ), (0:ℝ), (0:ℝ)) = ((10:ℝ) * 20 + -100, (0:ℝ), (0:ℝ)) by norm_num,
    show ((200:ℝ), (0:ℝ), (0:ℝ)) = ((10:ℝ) * 30 + -100, (0:ℝ), (0:ℝ)) by norm_num,
    show ((300:ℝ), (0:ℝ), (0:ℝ)) = ((10:ℝ) * 40 + -100, (0:ℝ), (0:ℝ)) by norm_num,
    show ((400:ℝ), (0:ℝ), (0:ℝ)) = ((10:ℝ) * 50 + -100, (0:ℝ), (0:ℝ)) by norm_num]
  rw [lerp_on_line 10 (-100) 20 30 t 0 0 (by norm_num),
    lerp_on_line 10 (-100) 30 40 t 0 0 (by norm_num),
    lerp_on_line 10 (-100) 40 50 t 0 0 (by norm_num),
    lerp_same, lerp_same, lerp_same]

lemma countLE_nil (t : ℝ) : countLE [] t = 0 := rfl

lemma countLE_tv4_mid (t : ℝ) (h1 : 20 ≤ t) (h2 : t < 30) : countLE tv4 t = 3 := by
  rw [tv4]
  simp only [countLE_cons, countLE_nil]
  rw [if_pos (by linarith : (0:ℝ) ≤ t), if_pos (by linarith : (10:ℝ) ≤ t),
    if_pos h1, if_neg (by linarith : ¬ (30:ℝ) ≤ t),
    if_neg (by linarith : ¬ (40:ℝ) ≤ t), if_neg (by linarith : ¬ (50:ℝ) ≤ t)]

lemma countLE_tv4_30 : countLE tv4 30 = 4 := by
  rw [tv4]
  simp only [countLE_cons, countLE_nil]
  rw [if_pos (by norm_num : (0:ℝ) ≤ 30), if_pos (by norm_num : (10:ℝ) ≤ 30),
    if_pos (by norm_num : (20:ℝ) ≤ 30), if_pos (by norm_num : (30:ℝ) ≤ (30:ℝ)),
    if_neg (by norm_num : ¬ (40:ℝ) ≤ 30), if_neg (by norm_num : ¬ (50:ℝ) ≤ 30)]

lemma evalAt_pv4_mid (t : ℝ) (h1 : 20 ≤ t) (h2 : t < 30) :
    evalAt pv4 tv4 t = (10 * t + -100, 0, 0) := by
  rw [evalAt, countLE_tv4_mid t h1 h2]
  have hidx : min (max (3 - 1) 1) (pv4.length - 3) = 2 := by norm_num [pv4]
  rw [hidx]
  exact eval2_pv4 t

lemma evalAt_pv4_30 : evalAt pv4 tv4 30 = (10 * (30:ℝ) + -100, 0, 0) := by
  rw [evalAt, countLE_tv4_30]
  have hidx : min (max (4 - 1) 1) (pv4.length - 3) = 3 := by norm_num [pv4]
  rw [hidx]
  exact eval3_pv4 30

lemma evalAt_pv4_k (k : ℕ) (hk : k ≤ 10) :
    evalAt pv4 tv4 (20 + (k : ℝ) / (lutN : ℝ) * 10) = (100 + 10 * (k : ℝ), 0, 0) := by
  have hlut : ((lutN : ℕ) : ℝ) = 10 := by norm_num [lutN]
  have harg : (20 + (k : ℝ) / (lutN : ℝ) * 10 : ℝ) = 20 + (k : ℝ) := by
    rw [hlut, div_mul_cancel₀ _ (by norm_num : (10:ℝ) ≠ 0)]
  rw [harg]
  rcases lt_or_eq_of_le hk with h10 | h10
  · have hb1 : (20 : ℝ) ≤ 20 + (k : ℝ) := le_add_of_nonneg_right (Nat.cast_nonneg k)
    have hb2 : (20 : ℝ) + (k : ℝ) < 30 := by
      have : (k : ℝ) < 10 := by exact_mod_cast h10
      linarith
    rw [evalAt_pv4_mid _ hb1 hb2,
      show (10 * (20 + (k : ℝ)) + -100 : ℝ) = 100 + 10 * (k : ℝ) by ring]
  · subst h10
    rw [show (20 : ℝ) + ((10 : ℕ) : ℝ) = 30 by norm_num, evalAt_pv4_30,
      show (10 * (30 : ℝ) + -100 : ℝ) = 100 + 10 * ((10 : ℕ) : ℝ) by norm_num]

lemma lutSamples_pv4 : lutSamples pv4 tv4 20 10 =
    [(100, 0, 0), (110, 0, 0), (120, 0, 0), (130, 0, 0), (140, 0, 0), (150, 0, 0),
     (160, 0, 0), (170, 0, 0), (180, 0, 0), (190, 0, 0), (200, 0, 0)] := by
  rw [lutSamples, show List.range (lutN + 1) = [0, 1, 2, 3, 4, 5, 6, 7, 8, 9, 10] by decide]
  simp only [List.map_cons, List.map_nil]
  rw [evalAt_pv4_k 0 (by norm_num), evalAt_pv4_k 1 (by norm_num),
    evalAt_pv4_k 2 (by norm_num), evalAt_pv4_k 3 (by norm_num),
    evalAt_pv4_k 4 (by norm_num), evalAt_pv4_k 5 (by norm_num),
    evalAt_pv4_k 6 (by norm_num), evalAt_pv4_k 7 (by norm_num),
    evalAt_pv4_k 8 (by norm_num), evalAt_pv4_k 9 (by norm_num),
    evalAt_pv4_k 10 (by norm_num)]
  norm_num

lemma lut4 : (GenerateSpline ex4).DistanceLUT =
    [0, 10, 20, 30, 40, 50, 60, 70, 80, 90, 100] := by
  rw [gen_ex4, splineOf_DistanceLUT, padded_ex4, tValues_pv4]
  have hl : pv4.length - 3 = 3 := by norm_num [pv4]
  rw [hl]
  have h2 : tv4.getD 2 0 = 20 := rfl
  have h3 : tv4.getD 3 0 = 30 := rfl
  rw [h2, h3, show (30 : ℝ) - 20 = 10 by norm_num, FillLUT, lutSamples_pv4]
  simp only [cumDist, cumDistAux, dist3]
  norm_num [sqrt_100]

lemma arc_ex4 : GetArcLength (GenerateSpline ex4) = 100 := by
  rw [GetArcLength, if_pos valid_ex4, lut4]
  rfl

/-- C9 (amended): for the collinear input `[(0,0,0), (100,0,0), (200,0,0),
(300,0,0)]` construction succeeds and `GetArcLength` - the final entry of
the distance table over the usable interior span (second to second-to-last
point) - is exactly 100. -/
theorem C9_arclength_example :
    (GenerateSpline ex4).bValid = true ∧
    GetArcLength (GenerateSpline ex4) = 100 :=
  ⟨valid_ex4, arc_ex4⟩

/-- Counterexample to C9 as stated: the arclength for the 4-point collinear
example is 100, a fixed distance 100 away from the claimed value of
approximately 200. -/
theorem C9_counterexample :
    (GenerateSpline ex4).bValid = true ∧
    |GetArcLength (GenerateSpline ex4) - 200| = 100 :=
  ⟨valid_ex4, by rw [arc_ex4]; norm_num⟩

lemma sqrt_2500 : Real.sqrt 2500 = 50 := by
  rw [show (2500 : ℝ) = 50 ^ 2 by norm_num, Real.sqrt_sq (by norm_num : (0:ℝ) ≤ 50)]

lemma chain_ex4 : List.Chain' (· ≠ ·) ex4 := by
  have := removeDup_chain ex4
  rwa [removeDup_ex4] at this

lemma find_ex4_0 : FindParameterForDistance (GenerateSpline ex4) 0 = 0 := by
  rw [FindParameterForDistance, if_pos valid_ex4, if_pos le_rfl]

lemma find_ex4_100 : FindParameterForDistance (GenerateSpline ex4) 100 = 1 := by
  rw [FindParameterForDistance, if_pos valid_ex4,
    if_neg (by norm_num : ¬ (100:ℝ) ≤ 0), if_pos (by rw [arc_ex4])]

lemma invIdx_lut4_50 :
    invIdx [0, 10, 20, 30, 40, 50, 60, 70, 80, 90, 100] (50 : ℝ) = 5 := by
  norm_num [invIdx]

lemma find_ex4_50 : FindParameterForDistance (GenerateSpline ex4) 50 = 1 / 2 := by
  rw [FindParameterForDistance, if_pos valid_ex4,
    if_neg (by norm_num : ¬ (50:ℝ) ≤ 0),
    if_neg (by rw [arc_ex4]; norm_num), lut4, invIdx_lut4_50]
  norm_num [lutN]

lemma sampleP_ex4_0 : SampleSplineByParameter (GenerateSpline ex4) 0 =
    ((100 : ℝ), (0 : ℝ), (0 : ℝ)) := by
  rw [gen_ex4]
  have := sample_zero ex4 (by norm_num [ex4]) chain_ex4
  rw [this]
  simp [ex4]

lemma sampleP_ex4_1 : SampleSplineByParameter (GenerateSpline ex4) 1 =
    ((200 : ℝ), (0 : ℝ), (0 : ℝ)) := by
  rw [gen_ex4]
  have := sample_one ex4 (by norm_num [ex4]) chain_ex4
  rw [this]
  simp [ex4]

lemma sampleP_ex4_half : SampleSplineByParameter (GenerateSpline ex4) (1 / 2) =
    ((150 : ℝ), (0 : ℝ), (0 : ℝ)) := by
  rw [gen_ex4, SampleSplineByParameter, if_pos (splineOf_bValid _),
    splineOf_PValues, splineOf_TValues, splineOf_TScale, padded_ex4, tValues_pv4]
  have hl : pv4.length - 3 = 3 := by norm_num [pv4]
  rw [hl]
  have hc : clamp01 (1 / 2) = 1 / 2 := by
    rw [clamp01, min_eq_right (by norm_num : (1:ℝ)/2 ≤ 1),
      max_eq_right (by norm_num : (0:ℝ) ≤ 1/2)]
  rw [hc, show tv4.getD 2 0 + 1 / 2 * (tv4.getD 3 0 - tv4.getD 2 0) = (25 : ℝ) by
    norm_num [tv4]]
  rw [evalAt_pv4_mid 25 (by norm_num) (by norm_num)]
  norm_num

lemma sbd_ex4_0 : SampleSplineByDistance (GenerateSpline ex4) 0 =
    ((100 : ℝ), (0 : ℝ), (0 : ℝ)) := by
  rw [SampleSplineByDistance, find_ex4_0, sampleP_ex4_0]

lemma sbd_ex4_50 : SampleSplineByDistance (GenerateSpline ex4) 50 =
    ((150 : ℝ), (0 : ℝ), (0 : ℝ)) := by
  rw [SampleSplineByDistance, find_ex4_50, sampleP_ex4_half]

lemma sbd_ex4_100 : SampleSplineByDistance (GenerateSpline ex4) 100 =
    ((200 : ℝ), (0 : ℝ), (0 : ℝ)) := by
  rw [SampleSplineByDistance, find_ex4_100, sampleP_ex4_1]

lemma eqDistances_head (A L : ℝ) : (eqDistances A L).head? = some 0 := by
  rw [eqDistances, List.range_succ_eq_map]
  simp only [List.map_cons, List.cons_append, List.head?_cons]
  norm_num

lemma eqDistances_getLast (A L : ℝ) : (eqDistances A L).getLast? = some A := by
  rw [eqDistances]
  split
  · next h =>
      rw [List.append_nil, List.range_succ, List.map_append]
      simp only [List.map_cons, List.map_nil]
      rw [List.getLast?_concat, h]
  · rw [List.getLast?_concat]

lemma eqDistances_100_50 : eqDistances 100 50 = [0, 50, 100] := by
  rw [eqDistances, show (100 : ℝ) / 50 = 2 by norm_num, Nat.floor_ofNat,
    if_pos (by norm_num : ((2 : ℕ) : ℝ) * 50 = 100),
    show List.range (2 + 1) = [0, 1, 2] by decide]
  simp only [List.map_cons, List.map_nil, List.append_nil]
  norm_num

lemma eqSamples_ex4_50 : EquidistantSamples (GenerateSpline ex4) 50 =
    [((100 : ℝ), (0 : ℝ), (0 : ℝ)), ((150 : ℝ), (0 : ℝ), (0 : ℝ)),
     ((200 : ℝ), (0 : ℝ), (0 : ℝ))] := by
  rw [EquidistantSamples, if_pos ⟨valid_ex4, by norm_num⟩, arc_ex4, eqDistances_100_50]
  simp only [List.map_cons, List.map_nil]
  rw [sbd_ex4_0, sbd_ex4_50, sbd_ex4_100]

/-- C6 (amended): for every valid spline and spacing `L > 0`,
`EquidistantSamples` maps the distance walk `0, L, 2L, ...` (up to and
including the total arclength, with the final curve point always included)
through `SampleSplineByDistance`, so its first sample is the distance-0
point and its last is the full-arclength point; for the straight-line
4-point example, whose usable arclength is 100, spacing 50 yields
`100/50 + 1 = 3` points spaced exactly 50 apart. -/
theorem C6_equidistant_samples :
    (∀ (s : UCatmullRomSpline) (L : ℝ), s.bValid = true → 0 < L →
      EquidistantSamples s L =
        (eqDistances (GetArcLength s) L).map (SampleSplineByDistance s) ∧
      (EquidistantSamples s L).head? = some (SampleSplineByDistance s 0) ∧
      (EquidistantSamples s L).getLast? =
        some (SampleSplineByDistance s (GetArcLength s))) ∧
    EquidistantSamples (GenerateSpline ex4) 50 =
      [((100 : ℝ), (0 : ℝ), (0 : ℝ)), ((150 : ℝ), (0 : ℝ), (0 : ℝ)),
       ((200 : ℝ), (0 : ℝ), (0 : ℝ))] ∧
    (EquidistantSamples (GenerateSpline ex4) 50).length =
      ⌊GetArcLength (GenerateSpline ex4) / 50⌋₊ + 1 ∧
    dist3 ((100 : ℝ), (0 : ℝ), (0 : ℝ)) ((150 : ℝ), (0 : ℝ), (0 : ℝ)) = 50 ∧
    dist3 ((150 : ℝ), (0 : ℝ), (0 : ℝ)) ((200 : ℝ), (0 : ℝ), (0 : ℝ)) = 50 := by
  refine ⟨?_, eqSamples_ex4_50, ?_, ?_, ?_⟩
  · intro s L hv hL
    have he : EquidistantSamples s L =
        (eqDistances (GetArcLength s) L).map (SampleSplineByDistance s) := by
      rw [EquidistantSamples, if_pos ⟨hv, hL⟩]
    refine ⟨he, ?_, ?_⟩
    · rw [he, List.head?_map, eqDistances_head]
      rfl
    · rw [he, List.getLast?_map, eqDistances_getLast]
      rfl
  · rw [eqSamples_ex4_50, arc_ex4, show (100 : ℝ) / 50 = 2 by norm_num,
      Nat.floor_ofNat]
    rfl
  · rw [dist3]
    norm_num [sqrt_2500]
  · rw [dist3]
    norm_num [sqrt_2500]

/-- Witness for C6's universally quantified part at the concrete 4-point
spline with spacing 50. -/
theorem C6_witness :
    (EquidistantSamples (GenerateSpline ex4) 50).head? =
      some (SampleSplineByDistance (GenerateSpline ex4) 0) :=
  ((C6_equidistant_samples.1 (GenerateSpline ex4) 50 valid_ex4 (by norm_num)).2).1

lemma eqDistances_0_50 : eqDistances 0 50 = [0] := by
  rw [eqDistances, show (0 : ℝ) / 50 = 0 by norm_num, Nat.floor_zero,
    if_pos (by norm_num : ((0 : ℕ) : ℝ) * 50 = 0),
    show List.range (0 + 1) = [0] by decide]
  simp only [List.map_cons, List.map_nil, List.append_nil]
  norm_num

/-- Counterexample to C6 as stated: for the straight-line 2-segment input
`[(0,0,0),(100,0,0),(200,0,0)]` of total polyline length `A = 200` and
spacing `L = 50`, the construction is valid but `EquidistantSamples`
returns 1 point, not `floor(A/L) + 1 = 5`: the walk covers the usable
interior arclength (here 0), not the full input polyline length. -/
theorem C6_counterexample :
    (GenerateSpline ex3).bValid = true ∧
    (EquidistantSamples (GenerateSpline ex3) 50).length ≠ ⌊(200 : ℝ) / 50⌋₊ + 1 := by
  refine ⟨valid_ex3, ?_⟩
  rw [EquidistantSamples, if_pos ⟨valid_ex3, by norm_num⟩, arc_ex3, eqDistances_0_50,
    show (200 : ℝ) / 50 = 4 by norm_num, Nat.floor_ofNat]
  simp
